import Mathlib

/-!
Verification of the typespeed kernel module (src/typespeed.c): a
60-bucket per-second ring of keystroke counts rotated by a one-second
timer, an unlocked in-progress counter incremented by the input event
handler, and a proc show routine that sums three nested windows under
a spinlock and prints four figures.  C size_t arithmetic is modelled
as Nat reduced modulo W = 2 ^ 64 (the module targets 64-bit kernels).
-/

namespace Typespeed

/-- Modulus of size_t arithmetic on the 64-bit target. -/
def W : Nat := 2 ^ 64

/-- The C macro LENGTH, the number of ring buckets. -/
def LENGTH : Nat := 60

/-- Event type EV_KEY from the kernel input headers (standard ABI value). -/
def EV_KEY : Nat := 1

/-- Keycode KEY_BACKSPACE from the kernel input headers. -/
def KEY_BACKSPACE : Nat := 14

/-- Keycode KEY_LEFTCTRL from the kernel input headers. -/
def KEY_LEFTCTRL : Nat := 29

/-- Keycode KEY_LEFTSHIFT from the kernel input headers. -/
def KEY_LEFTSHIFT : Nat := 42

/-- Keycode KEY_RIGHTSHIFT from the kernel input headers. -/
def KEY_RIGHTSHIFT : Nat := 54

/-- Keycode KEY_LEFTALT from the kernel input headers. -/
def KEY_LEFTALT : Nat := 56

/-- Keycode KEY_CAPSLOCK from the kernel input headers. -/
def KEY_CAPSLOCK : Nat := 58

/-- Keycode KEY_RIGHTCTRL from the kernel input headers. -/
def KEY_RIGHTCTRL : Nat := 97

/-- Keycode KEY_RIGHTALT from the kernel input headers. -/
def KEY_RIGHTALT : Nat := 100

/-- The module's global state: `static int t`, `static size_t events`,
`static size_t total`, `static size_t interval[LENGTH]`.  The cursor `t`
only ever takes values in `[0, LENGTH)`; `events` and `total` are size_t
values kept below `W`; `interval` is the fixed 60-cell ring. -/
structure State where
  t : Nat
  events : Nat
  total : Nat
  interval : List Nat
deriving DecidableEq

/-- The zero-initialized state of the module's globals at load time. -/
def init : State :=
  { t := 0, events := 0, total := 0, interval := List.replicate LENGTH 0 }

/-- The unlocked hot-path increment `events++` at the end of
`typespeed_event` (size_t increment, hence the reduction modulo `W`). -/
def record (s : State) : State :=
  { s with events := (s.events + 1) % W }

/-- `n` consecutive `record` calls with no intervening rotation. -/
def recordN : Nat → State → State
  | 0, s => s
  | n + 1, s => record (recordN n s)

/-- `timer_callback` (rotation).  Under the spinlock the code advances the
cursor, overwrites the bucket at the new cursor with the pending `events`
count and adds that count into `total`; after releasing the lock it resets
`events` to 0 (sequentially the same outcome).  The rescheduling of the
timer via `mod_timer` has no effect on this state and is not modelled. -/
def timer_callback (s : State) : State :=
  { t := (s.t + 1) % LENGTH
  , interval := s.interval.set ((s.t + 1) % LENGTH) s.events
  , total := (s.total + s.events) % W
  , events := 0 }

/-- `typespeed_event`: the input-handler callback.  Early-returns drop
events that are not key events, have code 0 or code at least 128, are not
press transitions (value 1), or are one of the fixed modifier keys;
otherwise the unlocked `events++` runs. -/
def typespeed_event (s : State) (type code : Nat) (value : Int) : State :=
  if type ≠ EV_KEY ∨ code = 0 ∨ 128 ≤ code then s
  else if value ≠ 1 then s
  else if code = KEY_RIGHTSHIFT ∨ code = KEY_LEFTSHIFT ∨
          code = KEY_RIGHTCTRL ∨ code = KEY_LEFTCTRL ∨
          code = KEY_RIGHTALT ∨ code = KEY_LEFTALT ∨
          code = KEY_CAPSLOCK ∨ code = KEY_BACKSPACE then s
  else record s

/-- The spec-side characterization of a countable keystroke, transcribed
from the claim: a key-transition press of a tracked, non-modifier code.
Stated independently of `typespeed_event` so the two can be compared. -/
abbrev countableSpec (type code : Nat) (value : Int) : Prop :=
  type = EV_KEY ∧ 1 ≤ code ∧ code < 128 ∧ value = 1 ∧
  code ≠ KEY_RIGHTSHIFT ∧ code ≠ KEY_LEFTSHIFT ∧
  code ≠ KEY_RIGHTCTRL ∧ code ≠ KEY_LEFTCTRL ∧
  code ≠ KEY_RIGHTALT ∧ code ≠ KEY_LEFTALT ∧
  code ≠ KEY_CAPSLOCK ∧ code ≠ KEY_BACKSPACE

/-- The ring bucket read `interval[(LENGTH + t - i) % LENGTH]` from
`typespeed_proc_show`: the bucket at offset `i` behind the cursor. -/
def bucketAt (s : State) (i : Nat) : Nat :=
  s.interval.getD ((LENGTH + s.t - i) % LENGTH) 0

/-- One of the three summation for-loops of `typespeed_proc_show`:
starting from accumulator `acc`, add the buckets at offsets
`lo, lo+1, ..., lo+len-1` behind the cursor (size_t addition). -/
def sumBuckets (s : State) : Nat → Nat → Nat → Nat
  | _, 0, acc => acc
  | lo, len + 1, acc => sumBuckets s (lo + 1) len ((acc + bucketAt s lo) % W)

/-- The three sums `(sum10, sum30, sum)` computed inside the critical
section of `typespeed_proc_show`: offsets 0..9, then 10..29 continuing
from `sum10`, then 30..59 continuing from `sum30`. -/
def snapshotSums (s : State) : Nat × Nat × Nat :=
  (sumBuckets s 0 10 0,
   sumBuckets s 10 20 (sumBuckets s 0 10 0),
   sumBuckets s 30 30 (sumBuckets s 10 20 (sumBuckets s 0 10 0)))

/-- The four figures passed to `seq_printf` by `typespeed_proc_show`.
The three sums are computed from the state `s` held while the spinlock
is taken (lines 133-146 of the source); `total` however is read by the
`seq_printf` call after `spin_unlock`, i.e. from the possibly later
state `sp`.  The sequential case is `sp = s`. -/
def showFigures (s sp : State) : Nat × Nat × Nat × Nat :=
  ((snapshotSums s).1 * LENGTH % W / 10,
   (snapshotSums s).2.1 * LENGTH % W / 30,
   (snapshotSums s).2.2,
   sp.total)

/-- `typespeed_proc_show` run with no concurrent rotation: the state at
print time is the state that was summed. -/
def typespeed_proc_show (s : State) : Nat × Nat × Nat × Nat :=
  showFigures s s

/-- The output line `"%zd %zd %zd %zd\n"`: four space-separated decimal
figures and a newline (all figures here are below 2 ^ 63, so the signed
rendering of %zd agrees with the unsigned value). -/
def renderLine (f : Nat × Nat × Nat × Nat) : String :=
  toString f.1 ++ " " ++ toString f.2.1 ++ " " ++
  toString f.2.2.1 ++ " " ++ toString f.2.2.2 ++ "\n"

/-- The full status line produced by one uninterrupted proc read. -/
def procShowLine (s : State) : String :=
  renderLine (typespeed_proc_show s)

/-- The C constant ENOMEM (the connect path returns its negation). -/
def ENOMEM : Int := 12

/-- Outcome of `typespeed_connect`: its return value and whether, when it
returns, a handle is still allocated, registered with the input core, and
opened. -/
structure ConnectOutcome where
  ret : Int
  allocated : Bool
  registered : Bool
  opened : Bool
deriving DecidableEq

/-- `typespeed_connect`, with the three fallible externals
(`kzalloc`, `input_register_handle`, `input_open_device`) abstracted as
success flags.  Mirrors the goto chain of the source: a failed kzalloc
returns -ENOMEM at once; a failed registration jumps to `err` and
returns -1 never having registered; a failed open jumps to `unregister`,
which calls `input_unregister_handle` before returning -1, so the handle
ends unregistered.  (The allocation is not freed on the failure paths,
which the outcome records via `allocated`.) -/
def typespeed_connect (allocOk registerOk openOk : Bool) : ConnectOutcome :=
  if allocOk = false then
    { ret := -ENOMEM, allocated := false, registered := false, opened := false }
  else if registerOk = false then
    { ret := -1, allocated := true, registered := false, opened := false }
  else if openOk = false then
    { ret := -1, allocated := true, registered := false, opened := false }
  else
    { ret := 0, allocated := true, registered := true, opened := true }

/-- The module's externally triggered operations: an input event
(filtered record), a timer tick (rotation), and a proc read (query). -/
inductive Op where
  | event (type code : Nat) (value : Int)
  | tick
  | query
deriving DecidableEq

/-- Effect of one operation on the global state.  A proc read runs
`typespeed_proc_show`, which takes and releases the spinlock but writes
none of the globals, so it leaves the state unchanged. -/
def applyOp (op : Op) (s : State) : State :=
  match op with
  | Op.event type code value => typespeed_event s type code value
  | Op.tick => timer_callback s
  | Op.query => s

/-- Effect of a sequence of operations, first operation first. -/
def applyOps : List Op → State → State
  | [], s => s
  | op :: rest, s => applyOps rest (applyOp op s)

/-- Absence of size_t overflow at one step: an event increment and a
rotation's addition into `total` stay below `W`. -/
def noOverflowStep (op : Op) (s : State) : Prop :=
  match op with
  | Op.event _ _ _ => s.events + 1 < W
  | Op.tick => s.total + s.events < W
  | Op.query => True

instance instDecNoOverflowStep (op : Op) (s : State) :
    Decidable (noOverflowStep op s) :=
  match op with
  | Op.event _ _ _ => inferInstanceAs (Decidable (s.events + 1 < W))
  | Op.tick => inferInstanceAs (Decidable (s.total + s.events < W))
  | Op.query => inferInstanceAs (Decidable True)

/-- Absence of size_t overflow along a whole trace of operations. -/
def noOverflowTrace (s : State) : List Op → Prop
  | [] => True
  | op :: rest => noOverflowStep op s ∧ noOverflowTrace (applyOp op s) rest

instance instDecNoOverflowTrace :
    (s : State) → (ops : List Op) → Decidable (noOverflowTrace s ops)
  | _, [] => inferInstanceAs (Decidable True)
  | s, op :: rest =>
    have : Decidable (noOverflowTrace (applyOp op s) rest) :=
      instDecNoOverflowTrace (applyOp op s) rest
    inferInstanceAs
      (Decidable (noOverflowStep op s ∧ noOverflowTrace (applyOp op s) rest))

/-- Sum of all 60 ring buckets. -/
def ringSum (s : State) : Nat :=
  s.interval.sum

/-- The state after five recorded keystrokes and one rotation, used by
the concrete scenarios below. -/
def s5 : State := timer_callback (recordN 5 init)

/-- The state after seven recorded keystrokes and one rotation. -/
def s7 : State := timer_callback (recordN 7 init)

lemma W_pos : 0 < W := by norm_num [W]

lemma recordN_t (n : Nat) (s : State) : (recordN n s).t = s.t := by
  induction n with
  | zero => rfl
  | succ k ih => simp [recordN, record, ih]

lemma recordN_total (n : Nat) (s : State) : (recordN n s).total = s.total := by
  induction n with
  | zero => rfl
  | succ k ih => simp [recordN, record, ih]

lemma recordN_interval (n : Nat) (s : State) :
    (recordN n s).interval = s.interval := by
  induction n with
  | zero => rfl
  | succ k ih => simp [recordN, record, ih]

lemma recordN_events (n : Nat) (s : State) (h : s.events + n < W) :
    (recordN n s).events = s.events + n := by
  induction n with
  | zero => rfl
  | succ k ih =>
    have hk : s.events + k < W := by omega
    simp only [recordN, record]
    rw [ih hk, Nat.mod_eq_of_lt (by omega)]
    omega

lemma typespeed_event_total (s : State) (type code : Nat) (value : Int) :
    (typespeed_event s type code value).total = s.total := by
  unfold typespeed_event
  split_ifs <;> rfl

lemma typespeed_event_interval (s : State) (type code : Nat) (value : Int) :
    (typespeed_event s type code value).interval = s.interval := by
  unfold typespeed_event
  split_ifs <;> rfl

lemma getD_set_self (l : List Nat) :
    ∀ (i a : Nat), i < l.length → (l.set i a).getD i 0 = a := by
  induction l with
  | nil => intro i a h; simp at h
  | cons x xs ih =>
    intro i a h
    cases i with
    | zero => rfl
    | succ k =>
      have hk : k < xs.length := by simpa using h
      simpa using ih k a hk

lemma sum_set_le (l : List Nat) : ∀ (i a : Nat), (l.set i a).sum ≤ l.sum + a := by
  induction l with
  | nil => intro i a; simp
  | cons x xs ih =>
    intro i a
    cases i with
    | zero =>
      simp only [List.set_cons_zero, List.sum_cons]
      omega
    | succ k =>
      simp only [List.set_cons_succ, List.sum_cons]
      have := ih k a
      omega

lemma sumBuckets_lt (s : State) (len : Nat) :
    ∀ lo acc, acc < W → sumBuckets s lo len acc < W := by
  induction len with
  | zero => intro lo acc h; exact h
  | succ k ih =>
    intro lo acc _
    simp only [sumBuckets]
    exact ih (lo + 1) _ (Nat.mod_lt _ W_pos)

lemma sumBuckets_mod (s : State) (len : Nat) :
    ∀ lo acc, sumBuckets s lo len acc % W = (acc + sumBuckets s lo len 0) % W := by
  induction len with
  | zero => intro lo acc; simp [sumBuckets]
  | succ k ih =>
    intro lo acc
    simp only [sumBuckets]
    rw [ih (lo + 1) ((acc + bucketAt s lo) % W)]
    conv_rhs => rw [Nat.add_mod]
    rw [ih (lo + 1) ((0 + bucketAt s lo) % W)]
    simp only [Nat.mod_add_mod, Nat.add_mod_mod, Nat.zero_add]
    rw [Nat.add_assoc]

lemma sumBuckets_shift (s : State) (lo len acc : Nat) (h : acc < W) :
    sumBuckets s lo len acc = (acc + sumBuckets s lo len 0) % W := by
  rw [← Nat.mod_eq_of_lt (sumBuckets_lt s len lo acc h), sumBuckets_mod]

lemma ringSum_le_total_aux (ops : List Op) :
    ∀ s : State, ringSum s ≤ s.total → noOverflowTrace s ops →
      ringSum (applyOps ops s) ≤ (applyOps ops s).total := by
  induction ops with
  | nil => intro s h _; exact h
  | cons op rest ih =>
    intro s h hno
    simp only [noOverflowTrace] at hno
    obtain ⟨h1, h2⟩ := hno
    refine ih (applyOp op s) ?_ h2
    cases op with
    | event ty c v =>
      show ringSum (typespeed_event s ty c v) ≤ (typespeed_event s ty c v).total
      rw [ringSum, typespeed_event_interval, typespeed_event_total]
      exact h
    | tick =>
      show ringSum (timer_callback s) ≤ (timer_callback s).total
      have hsum : (s.interval.set ((s.t + 1) % LENGTH) s.events).sum ≤
          s.interval.sum + s.events :=
        sum_set_le s.interval ((s.t + 1) % LENGTH) s.events
      have htot : (timer_callback s).total = s.total + s.events :=
        Nat.mod_eq_of_lt h1
      have hring : ringSum (timer_callback s) =
          (s.interval.set ((s.t + 1) % LENGTH) s.events).sum := rfl
      have hs : s.interval.sum ≤ s.total := h
      rw [hring, htot]
      omega
    | query => exact h

/-- C1 counterexample: starting from the fresh state with one pending
keystroke, a rotation slipping in between the locked summation and the
`seq_printf` that reads `total` changes the reported figures, so the read
of `total` is not in the same critical section as the summation. -/
theorem total_read_outside_lock_cex :
    showFigures (typespeed_event init EV_KEY 30 1)
        (timer_callback (typespeed_event init EV_KEY 30 1)) ≠
      typespeed_proc_show (typespeed_event init EV_KEY 30 1) := by
  decide

/-- C1 (amended): in `typespeed_proc_show` the three window sums are
computed from the state held during the locked critical section, but
`total` is read by `seq_printf` after `spin_unlock`, i.e. from whatever
state holds at print time, so a rotation may intervene between the
summation and the read of `total`. -/
theorem total_read_after_unlock (s sp : State) :
    (showFigures s sp).1 = (typespeed_proc_show s).1 ∧
    (showFigures s sp).2.1 = (typespeed_proc_show s).2.1 ∧
    (showFigures s sp).2.2.1 = (typespeed_proc_show s).2.2.1 ∧
    (showFigures s sp).2.2.2 = sp.total :=
  ⟨rfl, rfl, rfl, rfl⟩

/-- C2: from any state with no pending events, `n` `record` calls followed
by one `timer_callback` advance the cursor by one modulo 60, overwrite the
bucket at the new cursor with `n`, add `n` to `total`, and reset the
in-progress counter to zero (absent size_t overflow). -/
theorem rotate_commits_pending_count (s : State) (n : Nat)
    (hev : s.events = 0) (hlen : s.interval.length = 60)
    (hn : n < W) (htot : s.total + n < W) :
    (timer_callback (recordN n s)).t = (s.t + 1) % 60 ∧
    (timer_callback (recordN n s)).interval =
      s.interval.set ((s.t + 1) % 60) n ∧
    (timer_callback (recordN n s)).interval.getD ((s.t + 1) % 60) 0 = n ∧
    (timer_callback (recordN n s)).total = s.total + n ∧
    (timer_callback (recordN n s)).events = 0 := by
  have hevents : (recordN n s).events = n := by
    rw [recordN_events n s (by omega)]
    omega
  have hset : (timer_callback (recordN n s)).interval =
      s.interval.set ((s.t + 1) % 60) n := by
    simp [timer_callback, recordN_t, recordN_interval, hevents, LENGTH]
  refine ⟨?_, hset, ?_, ?_, rfl⟩
  · simp [timer_callback, recordN_t, LENGTH]
  · rw [hset]
    exact getD_set_self s.interval ((s.t + 1) % 60) n
      (by rw [hlen]; exact Nat.mod_lt _ (by norm_num))
  · show ((recordN n s).total + (recordN n s).events) % W = s.total + n
    rw [recordN_total, hevents]
    exact Nat.mod_eq_of_lt htot

/-- C2 witness: five records and one rotation from the fresh state. -/
theorem rotate_commits_pending_count_witness :
    (timer_callback (recordN 5 init)).t = (init.t + 1) % 60 ∧
    (timer_callback (recordN 5 init)).interval =
      init.interval.set ((init.t + 1) % 60) 5 ∧
    (timer_callback (recordN 5 init)).interval.getD ((init.t + 1) % 60) 0 = 5 ∧
    (timer_callback (recordN 5 init)).total = init.total + 5 ∧
    (timer_callback (recordN 5 init)).events = 0 :=
  rotate_commits_pending_count init 5 rfl (by decide) (by decide) (by decide)

/-- C3: `typespeed_event` runs the unlocked increment exactly on countable
keystrokes (EV_KEY, code in 1..127, value 1, not a modifier or backspace)
and leaves the state untouched on every other triple. -/
theorem event_filter_characterization (s : State) (type code : Nat)
    (value : Int) :
    (countableSpec type code value →
      typespeed_event s type code value =
        { s with events := (s.events + 1) % W }) ∧
    (¬ countableSpec type code value →
      typespeed_event s type code value = s) := by
  constructor
  · intro h
    obtain ⟨hT, hge, hlt, hv, m1, m2, m3, m4, m5, m6, m7, m8⟩ := h
    unfold typespeed_event
    rw [if_neg (by push_neg; exact ⟨hT, by omega, by omega⟩),
        if_neg (by push_neg; exact hv),
        if_neg (by push_neg; exact ⟨m1, m2, m3, m4, m5, m6, m7, m8⟩)]
    rfl
  · intro hnc
    unfold typespeed_event
    split_ifs with g1 g2 g3
    · rfl
    · rfl
    · rfl
    · push_neg at g1 g2 g3
      exact absurd ⟨g1.1, by omega, g1.2.2, g2, g3.1, g3.2.1, g3.2.2.1,
        g3.2.2.2.1, g3.2.2.2.2.1, g3.2.2.2.2.2.1, g3.2.2.2.2.2.2.1,
        g3.2.2.2.2.2.2.2⟩ hnc

/-- C3 witness: a press of keycode 30 is counted. -/
theorem event_filter_characterization_witness :
    typespeed_event init EV_KEY 30 1 =
      { init with events := (init.events + 1) % W } :=
  (event_filter_characterization init EV_KEY 30 1).1 (by decide)

/-- C4: for every state (any ring contents, any cursor) the three sums of
`typespeed_proc_show` nest: `sum30` is `sum10` plus the sum of the buckets
at offsets 10..29 behind the cursor, and `sum` (sum60) is `sum30` plus the
sum of the buckets at offsets 30..59, in size_t arithmetic. -/
theorem snapshot_nesting (s : State) :
    (snapshotSums s).2.1 =
      ((snapshotSums s).1 + sumBuckets s 10 20 0) % W ∧
    (snapshotSums s).2.2 =
      ((snapshotSums s).2.1 + sumBuckets s 30 30 0) % W := by
  have h10 : sumBuckets s 0 10 0 < W := sumBuckets_lt s 10 0 0 W_pos
  have h30 : sumBuckets s 10 20 (sumBuckets s 0 10 0) < W :=
    sumBuckets_lt s 20 10 _ h10
  exact ⟨sumBuckets_shift s 10 20 _ h10, sumBuckets_shift s 30 30 _ h30⟩

/-- C5: the rendered figures scale the window sums by 60/10 and 60/30 with
integer division (exactly x6 and x2 when the products do not overflow),
and print the 60-second sum unscaled. -/
theorem render_scaling (s : State)
    (h10 : (snapshotSums s).1 * LENGTH < W)
    (h30 : (snapshotSums s).2.1 * LENGTH < W) :
    (typespeed_proc_show s).1 = (snapshotSums s).1 * LENGTH / 10 ∧
    (typespeed_proc_show s).1 = (snapshotSums s).1 * 6 ∧
    (typespeed_proc_show s).2.1 = (snapshotSums s).2.1 * LENGTH / 30 ∧
    (typespeed_proc_show s).2.1 = (snapshotSums s).2.1 * 2 ∧
    (typespeed_proc_show s).2.2.1 = (snapshotSums s).2.2 := by
  have e10 : (typespeed_proc_show s).1 =
      (snapshotSums s).1 * LENGTH % W / 10 := rfl
  have e30 : (typespeed_proc_show s).2.1 =
      (snapshotSums s).2.1 * LENGTH % W / 30 := rfl
  refine ⟨?_, ?_, ?_, ?_, rfl⟩
  · rw [e10, Nat.mod_eq_of_lt h10]
  · rw [e10, Nat.mod_eq_of_lt h10]
    show (snapshotSums s).1 * 60 / 10 = (snapshotSums s).1 * 6
    omega
  · rw [e30, Nat.mod_eq_of_lt h30]
  · rw [e30, Nat.mod_eq_of_lt h30]
    show (snapshotSums s).2.1 * 60 / 30 = (snapshotSums s).2.1 * 2
    omega

/-- C5 witness: after seven keystrokes and one rotation, `sum10 = 7`
renders as 42. -/
theorem render_scaling_witness :
    (snapshotSums s7).1 * LENGTH < W ∧
    (snapshotSums s7).2.1 * LENGTH < W ∧
    ((typespeed_proc_show s7).1 = (snapshotSums s7).1 * LENGTH / 10 ∧
     (typespeed_proc_show s7).1 = (snapshotSums s7).1 * 6 ∧
     (typespeed_proc_show s7).2.1 = (snapshotSums s7).2.1 * LENGTH / 30 ∧
     (typespeed_proc_show s7).2.1 = (snapshotSums s7).2.1 * 2 ∧
     (typespeed_proc_show s7).2.2.1 = (snapshotSums s7).2.2) ∧
    (snapshotSums s7).1 = 7 ∧ (typespeed_proc_show s7).1 = 42 :=
  ⟨by decide, by decide, render_scaling s7 (by decide) (by decide),
   by decide, by decide⟩

/-- C6: from the fresh state, five records and one rotation leave exactly
one nonzero bucket, of value 5, at the current cursor; the snapshot sums
are (5, 5, 5) with lifetime total 5; the status line is "30 10 5 5"
followed by a newline. -/
theorem five_records_one_rotate_scenario :
    s5.interval.getD s5.t 0 = 5 ∧
    (∀ j : Nat, j < 60 → j ≠ s5.t → s5.interval.getD j 0 = 0) ∧
    snapshotSums s5 = (5, 5, 5) ∧
    s5.total = 5 ∧
    procShowLine s5 = "30 10 5 5\n" := by
  decide

/-- C6 witness: a bucket away from the cursor is zero. -/
theorem five_records_one_rotate_scenario_witness :
    s5.interval.getD 17 0 = 0 :=
  five_records_one_rotate_scenario.2.1 17 (by decide) (by decide)

/-- C7: `total` never decreases along any overflow-free trace of events,
ticks and queries; an input event and a proc read leave it unchanged; a
rotation is the only mutation, adding the pending count in size_t
arithmetic. -/
theorem total_monotone_only_rotate :
    (∀ (s : State) (ops : List Op), noOverflowTrace s ops →
      s.total ≤ (applyOps ops s).total) ∧
    (∀ (s : State) (type code : Nat) (value : Int),
      (typespeed_event s type code value).total = s.total) ∧
    (∀ s : State, (applyOp Op.query s).total = s.total) ∧
    (∀ s : State, (timer_callback s).total = (s.total + s.events) % W) := by
  refine ⟨?_, typespeed_event_total, fun _ => rfl, fun _ => rfl⟩
  intro s ops
  induction ops generalizing s with
  | nil => intro _; exact Nat.le_refl _
  | cons op rest ih =>
    intro h
    simp only [noOverflowTrace] at h
    obtain ⟨h1, h2⟩ := h
    refine Nat.le_trans ?_ (ih (applyOp op s) h2)
    cases op with
    | event ty c v =>
      show s.total ≤ (typespeed_event s ty c v).total
      rw [typespeed_event_total]
    | tick =>
      show s.total ≤ (timer_callback s).total
      have htot : (timer_callback s).total = s.total + s.events :=
        Nat.mod_eq_of_lt h1
      omega
    | query => exact Nat.le_refl _

/-- C7 witness: one tick from the fresh state does not decrease total. -/
theorem total_monotone_only_rotate_witness :
    init.total ≤ (applyOps [Op.tick] init).total :=
  total_monotone_only_rotate.1 init [Op.tick] (by decide)

/-- C8: in every state reachable from the fresh state by an overflow-free
trace, the sum of the 60 ring buckets is at most the lifetime total. -/
theorem ring_sum_le_total (ops : List Op) (h : noOverflowTrace init ops) :
    ringSum (applyOps ops init) ≤ (applyOps ops init).total :=
  ringSum_le_total_aux ops init (by decide) h

/-- C8 witness: one counted keystroke followed by a rotation. -/
theorem ring_sum_le_total_witness :
    ringSum (applyOps [Op.event EV_KEY 30 1, Op.tick] init) ≤
      (applyOps [Op.event EV_KEY 30 1, Op.tick] init).total :=
  ring_sum_le_total [Op.event EV_KEY 30 1, Op.tick] (by decide)

/-- C9: proc reads do not mutate the aggregator state, so any number of
repeated reads with no intervening event or tick leaves the state fixed
and produces the same status line every time. -/
theorem proc_show_idempotent (s : State) (n : Nat) :
    applyOps (List.replicate n Op.query) s = s ∧
    procShowLine (applyOps (List.replicate n Op.query) s) = procShowLine s := by
  have h : applyOps (List.replicate n Op.query) s = s := by
    induction n with
    | zero => rfl
    | succ k ih => simpa [List.replicate_succ, applyOps, applyOp] using ih
  exact ⟨h, by rw [h]⟩

/-- C10: a failed allocation makes connect return -ENOMEM with nothing
registered or opened; after a successful allocation, a failed registration
or a failed device open makes connect return a nonzero code with the
handle left unregistered. -/
theorem connect_error_paths (allocOk registerOk openOk : Bool) :
    (allocOk = false →
      (typespeed_connect allocOk registerOk openOk).ret = -ENOMEM ∧
      (typespeed_connect allocOk registerOk openOk).registered = false ∧
      (typespeed_connect allocOk registerOk openOk).opened = false) ∧
    (allocOk = true → registerOk = false ∨ openOk = false →
      (typespeed_connect allocOk registerOk openOk).ret ≠ 0 ∧
      (typespeed_connect allocOk registerOk openOk).registered = false) ∧
    ((typespeed_connect allocOk registerOk openOk).ret ≠ 0 →
      (typespeed_connect allocOk registerOk openOk).registered = false) := by
  cases allocOk <;> cases registerOk <;> cases openOk <;> exact (by decide)

/-- C10 witness: the allocation-failure path. -/
theorem connect_error_paths_witness :
    (typespeed_connect false true true).ret = -ENOMEM ∧
    (typespeed_connect false true true).registered = false ∧
    (typespeed_connect false true true).opened = false :=
  (connect_error_paths false true true).1 rfl

end Typespeed
